import Mathlib

/-!
Shallow embedding of the Immix mark-region GC policy
(`src/policy/immix/immixspace.rs`) and of the slot-processing work packets
(`src/scheduler/gc_work.rs`), together with proofs of the specified
properties.  Stateful Rust code is embedded as explicit state passing over
records; the concurrent CAS operations are given their sequential
(uncontended) semantics; `unreachable!()`/panic paths are embedded as
`Except.error`.
-/

namespace MMTkImmix

/-- Block lifecycle states (`BlockState` in `block.rs`, as used throughout
`immixspace.rs`): `Unallocated`, `Unmarked`, `Marked`, or
`Reusable { unavailable_lines }`. -/
inductive BlockState where
  | Unallocated
  | Unmarked
  | Marked
  | Reusable (unavailableLines : Nat)
  deriving DecidableEq, Repr

/-! ## C1: `ImmixSpace::get_next_available_lines` (hole search) -/

/-- One of the two cursor loops of `ImmixSpace::get_next_available_lines`
(`while cursor < mark_data.len() { let mark = mark_data.get(cursor); if
<stop condition> { break; } cursor += 1; }`): advance `cursor` until `stop`
holds for the mark byte at `cursor` or the end of the table is reached.
`fuel` is the loop's termination measure (`markData.length - cursor` at the
entry of the loop). -/
def scanWhileFuel (stop : Nat → Bool) (markData : List Nat) :
    Nat → Nat → Nat
  | 0, cursor => cursor
  | fuel + 1, cursor =>
    if cursor < markData.length then
      if stop (markData.getD cursor 0) then cursor
      else scanWhileFuel stop markData fuel (cursor + 1)
    else cursor

/-- The cursor loop of the hole search, with its fuel instantiated to the
termination measure.  Returns the final value of `cursor`. -/
def scanWhile (stop : Nat → Bool) (markData : List Nat) (cursor : Nat) : Nat :=
  scanWhileFuel stop markData (markData.length - cursor) cursor

/-- Availability test on one line-mark byte: the break condition
`mark != unavail_state && mark != current_state` of the first loop in
`get_next_available_lines`. -/
def lineIsAvail (unavailState currentState mark : Nat) : Bool :=
  decide (mark ≠ unavailState ∧ mark ≠ currentState)

/-- `ImmixSpace::get_next_available_lines`, with the block's line mark table
embedded as a list of mark bytes and lines identified by their index within
the block (`Line::get_index_within_block` / `Line::next_nth`).  The first
loop advances past unavailable lines (bytes equal to `line_unavail_state`
or to the current `line_mark_state`); if it reaches the end of the table
the result is `None`; otherwise the second loop advances past the run of
available lines, and the pair `(start, end)` of indices is returned. -/
def get_next_available_lines (unavailState currentState : Nat)
    (markData : List Nat) (startCursor : Nat) : Option (Nat × Nat) :=
  let start := scanWhile (fun mark => lineIsAvail unavailState currentState mark)
    markData startCursor
  if start = markData.length then
    none
  else
    let limit := scanWhile
      (fun mark => !lineIsAvail unavailState currentState mark) markData start
    some (start, limit)

theorem scanWhileFuel_ge (stop : Nat → Bool) (markData : List Nat) :
    ∀ fuel cursor, cursor ≤ scanWhileFuel stop markData fuel cursor := by
  intro fuel
  induction fuel with
  | zero => intro cursor; exact Nat.le_refl _
  | succ fuel ih =>
    intro cursor
    simp only [scanWhileFuel]
    split
    · split
      · exact Nat.le_refl _
      · exact Nat.le_trans (Nat.le_succ _) (ih (cursor + 1))
    · exact Nat.le_refl _

theorem scanWhileFuel_le_length (stop : Nat → Bool) (markData : List Nat) :
    ∀ fuel cursor, cursor ≤ markData.length →
      scanWhileFuel stop markData fuel cursor ≤ markData.length := by
  intro fuel
  induction fuel with
  | zero => intro cursor h; exact h
  | succ fuel ih =>
    intro cursor h
    simp only [scanWhileFuel]
    split
    · split
      · exact h
      · exact ih (cursor + 1) (by omega)
    · exact h

theorem scanWhileFuel_skipped (stop : Nat → Bool) (markData : List Nat) :
    ∀ fuel cursor i, cursor ≤ i →
      i < scanWhileFuel stop markData fuel cursor →
      stop (markData.getD i 0) = false := by
  intro fuel
  induction fuel with
  | zero =>
    intro cursor i h1 h2
    simp only [scanWhileFuel] at h2
    exact absurd h2 (Nat.not_lt.mpr h1)
  | succ fuel ih =>
    intro cursor i h1 h2
    simp only [scanWhileFuel] at h2
    by_cases hc : cursor < markData.length
    · rw [if_pos hc] at h2
      by_cases hs : stop (markData.getD cursor 0) = true
      · rw [if_pos hs] at h2
        exact absurd h2 (Nat.not_lt.mpr h1)
      · rw [if_neg hs] at h2
        rcases Nat.eq_or_lt_of_le h1 with heq | hlt
        · subst heq
          simpa using hs
        · exact ih (cursor + 1) i hlt h2
    · rw [if_neg hc] at h2
      exact absurd h2 (Nat.not_lt.mpr h1)

/-- C1: whenever `get_next_available_lines(search_start)` returns
`Some((start, end))`, `start ≤ end` holds and every line index in
`[start, end)` carries a mark byte equal to neither `line_unavail_state`
nor the current `line_mark_state`; moreover, on the line-state pattern
`[U, U, C, X, X, C, X]` (U = unavail, C = current, X = available), the call
starting at index 0 returns `(3, 5)`, the call starting at index 5 returns
`(6, 7)`, and the call starting at index 7 returns `None`. -/
theorem C1_get_next_available_lines_correct :
    (∀ (unavailState currentState : Nat) (markData : List Nat)
      (startCursor lineStart lineEnd : Nat),
      startCursor ≤ markData.length →
      get_next_available_lines unavailState currentState markData startCursor =
        some (lineStart, lineEnd) →
      lineStart ≤ lineEnd ∧
      ∀ i, lineStart ≤ i → i < lineEnd →
        i < markData.length ∧
        markData.getD i 0 ≠ unavailState ∧ markData.getD i 0 ≠ currentState) ∧
    get_next_available_lines 1 2 [1, 1, 2, 3, 3, 2, 3] 0 = some (3, 5) ∧
    get_next_available_lines 1 2 [1, 1, 2, 3, 3, 2, 3] 5 = some (6, 7) ∧
    get_next_available_lines 1 2 [1, 1, 2, 3, 3, 2, 3] 7 = none := by
  refine ⟨?_, by decide, by decide, by decide⟩
  intro u c md s a b hs hsome
  simp only [get_next_available_lines] at hsome
  split at hsome
  · exact absurd hsome (by simp)
  · rename_i hne
    rw [Option.some.injEq, Prod.mk.injEq] at hsome
    obtain ⟨ha, hb⟩ := hsome
    have hstartle : scanWhile (fun mark => lineIsAvail u c mark) md s ≤ md.length :=
      scanWhileFuel_le_length _ md _ s hs
    have halt : a < md.length := by
      rw [← ha]
      exact Nat.lt_of_le_of_ne hstartle hne
    have hble : b ≤ md.length := by
      rw [← hb]
      exact scanWhileFuel_le_length _ md _ _ (by omega)
    constructor
    · rw [← ha, ← hb]
      exact scanWhileFuel_ge _ md _ _
    · intro i hai hib
      refine ⟨by omega, ?_⟩
      rw [ha] at hb
      simp only [scanWhile] at hb
      rw [← hb] at hib
      have hskip := scanWhileFuel_skipped (fun mark => !lineIsAvail u c mark) md
        (md.length - a) a i hai hib
      have : lineIsAvail u c (md.getD i 0) = true := by
        simpa using hskip
      simpa [lineIsAvail] using this

/-- Witness for C1, instantiating the universal part on the concrete
line-state pattern of the boundary scenario. -/
theorem C1_get_next_available_lines_correct_witness :
    (0 ≤ ([1, 1, 2, 3, 3, 2, 3] : List Nat).length ∧
      get_next_available_lines 1 2 [1, 1, 2, 3, 3, 2, 3] 0 = some (3, 5)) ∧
    (3 ≤ 5 ∧
      ∀ i, 3 ≤ i → i < 5 →
        i < ([1, 1, 2, 3, 3, 2, 3] : List Nat).length ∧
        ([1, 1, 2, 3, 3, 2, 3] : List Nat).getD i 0 ≠ 1 ∧
        ([1, 1, 2, 3, 3, 2, 3] : List Nat).getD i 0 ≠ 2) :=
  ⟨⟨by decide, by decide⟩,
    C1_get_next_available_lines_correct.1 1 2 [1, 1, 2, 3, 3, 2, 3] 0 3 5
      (by decide) (by decide)⟩

/-! ## C2, C3: `attempt_mark`, `trace_object_without_moving`,
`trace_object_with_opportunistic_copy` -/

/-- The three forwarding states kept in an object's forwarding bits
(NOT_FORWARDED / BEING_FORWARDED / FORWARDED, from `object_forwarding`). -/
inductive FwdStatus where
  | NotForwarded
  | BeingForwarded
  | Forwarded
  deriving DecidableEq, Repr

/-- Per-object metadata touched by the trace protocols: the mark byte
(`LOCAL_MARK_BIT_SPEC`), the forwarding bits and forwarding pointer, the
pinning bit, the state of the containing block, the mark state last written
to the object's lines (`none` if the lines were never marked), and the log
bit (`logged = false` means unlogged). -/
structure ObjMeta where
  markByte : Nat
  fwdStatus : FwdStatus
  fwdPtr : Option Nat
  pinned : Bool
  blockState : BlockState
  lineMark : Option Nat
  logged : Bool
  deriving DecidableEq, Repr

/-- Compile-time and space configuration flags used by the trace protocols:
`BLOCK_ONLY`, `MARK_LINE_AT_SCAN_TIME`, and
`ImmixSpaceArgs::unlog_object_when_traced`. -/
structure ImmixFlags where
  blockOnly : Bool
  markLineAtScanTime : Bool
  unlogObjectWhenTraced : Bool
  deriving DecidableEq, Repr

/-- `ImmixSpace::attempt_mark`, sequential (uncontended) semantics of the
CAS loop: load the mark byte; if it already equals `mark_state`, return
`false`; otherwise install `mark_state` and return `true`.  The result is
the returned `Bool` paired with the mark byte afterwards. -/
def attempt_mark (markByte markStateArg : Nat) : Bool × Nat :=
  if markByte = markStateArg then (false, markByte)
  else (true, markStateArg)

/-- `ImmixSpace::mark_lines` / `Line::mark_lines_for_object`: write the
current line mark state into the mark byte of every line the object spans
(recorded here as the `lineMark` field of the single traced object). -/
def mark_lines (lineMarkState : Nat) (m : ObjMeta) : ObjMeta :=
  { m with lineMark := some lineMarkState }

/-- `ImmixSpace::unlog_object_if_needed`: if
`space_args.unlog_object_when_traced`, mark the object's log byte as
unlogged. -/
def unlog_object_if_needed (flags : ImmixFlags) (m : ObjMeta) : ObjMeta :=
  if flags.unlogObjectWhenTraced then { m with logged := false } else m

/-- `ImmixSpace::trace_object_without_moving`: attempt to mark the object;
on a successful mark, mark its lines (unless `BLOCK_ONLY`, in which case
the containing block is set to `Marked` instead; line marking may also be
deferred to scan time), unlog it if needed, and enqueue it; in every case
return the object unchanged.  The result is the returned reference, the
object metadata afterwards, and the node queue afterwards. -/
def trace_object_without_moving (flags : ImmixFlags)
    (markStateArg lineMarkState : Nat) (obj : Nat) (m : ObjMeta)
    (queue : List Nat) : Nat × ObjMeta × List Nat :=
  let res := attempt_mark m.markByte markStateArg
  if res.1 then
    let m1 := { m with markByte := res.2 }
    let m2 :=
      if !flags.blockOnly then
        if !flags.markLineAtScanTime then mark_lines lineMarkState m1 else m1
      else { m1 with blockState := BlockState.Marked }
    let m3 := unlog_object_if_needed flags m2
    (obj, m3, queue ++ [obj])
  else
    (obj, m, queue)

/-- `object_forwarding::attempt_to_forward`, sequential semantics: CAS the
forwarding bits from NOT_FORWARDED to BEING_FORWARDED; the result is the
previously observed status paired with the metadata afterwards. -/
def attempt_to_forward (m : ObjMeta) : FwdStatus × ObjMeta :=
  match m.fwdStatus with
  | FwdStatus.NotForwarded =>
    (FwdStatus.NotForwarded, { m with fwdStatus := FwdStatus.BeingForwarded })
  | st => (st, m)

/-- `object_forwarding::state_is_forwarded_or_being_forwarded`. -/
def state_is_forwarded_or_being_forwarded (st : FwdStatus) : Bool :=
  decide (st ≠ FwdStatus.NotForwarded)

/-- `object_forwarding::clear_forwarding_bits`: restore NOT_FORWARDED. -/
def clear_forwarding_bits (m : ObjMeta) : ObjMeta :=
  { m with fwdStatus := FwdStatus.NotForwarded }

/-- `object_forwarding::spin_and_get_forwarded_object`, sequential
semantics: the winner has already published the forwarding pointer, so read
it (in this embedding the pointer defaults to the object itself if it was
never installed, which cannot happen on the path that calls this). -/
def spin_and_get_forwarded_object (obj : Nat) (m : ObjMeta) : Nat :=
  m.fwdPtr.getD obj

/-- `object_forwarding::forward_object` together with the copy context's
`post_copy` (`ImmixSpace::post_copy`): copy the object to `newAddr`, store
the mark state on the copy and mark its lines unless deferred (the copy's
block is `Marked` because the copy allocator initialises fresh copy blocks
with `init(copy = true)`), install the forwarding pointer and publish
FORWARDED on the source.  Returns the new reference, the source metadata
afterwards, and the copy's metadata. -/
def forward_object (markLineAtScanTime : Bool)
    (markStateArg lineMarkState : Nat) (newAddr : Nat) (m : ObjMeta) :
    Nat × ObjMeta × ObjMeta :=
  let copyMeta : ObjMeta :=
    { markByte := markStateArg
      fwdStatus := FwdStatus.NotForwarded
      fwdPtr := none
      pinned := m.pinned
      blockState := BlockState.Marked
      lineMark := if !markLineAtScanTime then some lineMarkState else none
      logged := m.logged }
  (newAddr, { m with fwdStatus := FwdStatus.Forwarded, fwdPtr := some newAddr },
    copyMeta)

/-- Result of `trace_object_with_opportunistic_copy`: the returned
reference, the source object's metadata afterwards, the metadata of the
copy if one was made, and the node queue afterwards. -/
structure CopyTraceResult where
  ret : Nat
  src : ObjMeta
  copyMeta : Option ObjMeta
  queue : List Nat
  deriving DecidableEq, Repr

/-- `ImmixSpace::trace_object_with_opportunistic_copy` (sequential
semantics of the three-way forwarding race): the loser spins and returns
the forwarding pointer; the winner of an already-marked object clears the
forwarding bits and returns the object; otherwise, if the object is pinned
or (outside a nursery collection) the defrag copy headroom is exhausted
(`defrag.space_exhausted()`), the object is marked in place, its forwarding
bits cleared, its block set to `Marked`, its lines marked unless deferred,
and it is enqueued; otherwise it is forwarded to `newAddr` (the copy
allocation) and the copy is enqueued. -/
def trace_object_with_opportunistic_copy (flags : ImmixFlags)
    (nurseryCollection spaceExhausted : Bool)
    (markStateArg lineMarkState : Nat) (obj newAddr : Nat) (m : ObjMeta)
    (queue : List Nat) : CopyTraceResult :=
  let fr := attempt_to_forward m
  if state_is_forwarded_or_being_forwarded fr.1 then
    { ret := spin_and_get_forwarded_object obj fr.2, src := fr.2,
      copyMeta := none, queue := queue }
  else if fr.2.markByte = markStateArg then
    { ret := obj, src := clear_forwarding_bits fr.2, copyMeta := none,
      queue := queue }
  else if fr.2.pinned || (!nurseryCollection && spaceExhausted) then
    let m1 := { fr.2 with markByte := (attempt_mark fr.2.markByte markStateArg).2 }
    let m2 := clear_forwarding_bits m1
    let m3 := { m2 with blockState := BlockState.Marked }
    let m4 := if !flags.markLineAtScanTime then mark_lines lineMarkState m3 else m3
    { ret := obj, src := unlog_object_if_needed flags m4, copyMeta := none,
      queue := queue ++ [obj] }
  else
    let f := forward_object flags.markLineAtScanTime markStateArg lineMarkState
      newAddr fr.2
    { ret := f.1, src := f.2.1,
      copyMeta := some (unlog_object_if_needed flags f.2.2),
      queue := queue ++ [f.1] }

theorem unlog_object_if_needed_markByte (flags : ImmixFlags) (m : ObjMeta) :
    (unlog_object_if_needed flags m).markByte = m.markByte := by
  unfold unlog_object_if_needed
  split <;> rfl

theorem unlog_object_if_needed_fwdStatus (flags : ImmixFlags) (m : ObjMeta) :
    (unlog_object_if_needed flags m).fwdStatus = m.fwdStatus := by
  unfold unlog_object_if_needed
  split <;> rfl

theorem unlog_object_if_needed_blockState (flags : ImmixFlags) (m : ObjMeta) :
    (unlog_object_if_needed flags m).blockState = m.blockState := by
  unfold unlog_object_if_needed
  split <;> rfl

theorem unlog_object_if_needed_lineMark (flags : ImmixFlags) (m : ObjMeta) :
    (unlog_object_if_needed flags m).lineMark = m.lineMark := by
  unfold unlog_object_if_needed
  split <;> rfl

theorem trace_object_without_moving_fst (flags : ImmixFlags)
    (markStateArg lineMarkState obj : Nat) (m : ObjMeta) (queue : List Nat) :
    (trace_object_without_moving flags markStateArg lineMarkState obj m
      queue).1 = obj := by
  simp only [trace_object_without_moving]
  split <;> rfl

theorem trace_object_without_moving_of_marked (flags : ImmixFlags)
    (markStateArg lineMarkState obj : Nat) (m : ObjMeta) (queue : List Nat)
    (h : m.markByte = markStateArg) :
    trace_object_without_moving flags markStateArg lineMarkState obj m queue
      = (obj, m, queue) := by
  simp [trace_object_without_moving, attempt_mark, h]

theorem trace_object_without_moving_markByte (flags : ImmixFlags)
    (markStateArg lineMarkState obj : Nat) (m : ObjMeta) (queue : List Nat) :
    (trace_object_without_moving flags markStateArg lineMarkState obj m
      queue).2.1.markByte = markStateArg := by
  by_cases hm : m.markByte = markStateArg
  · rw [trace_object_without_moving_of_marked _ _ _ _ _ _ hm]
    exact hm
  · simp only [trace_object_without_moving, attempt_mark, if_neg hm,
      if_pos trivial]
    rw [unlog_object_if_needed_markByte]
    split
    · split <;> rfl
    · rfl

theorem trace_object_without_moving_queue (flags : ImmixFlags)
    (markStateArg lineMarkState obj : Nat) (m : ObjMeta) (queue : List Nat) :
    (trace_object_without_moving flags markStateArg lineMarkState obj m
      queue).2.2 =
      if m.markByte = markStateArg then queue else queue ++ [obj] := by
  by_cases hm : m.markByte = markStateArg
  · rw [trace_object_without_moving_of_marked _ _ _ _ _ _ hm, if_pos hm]
  · simp only [trace_object_without_moving, attempt_mark, if_neg hm,
      if_pos trivial]

/-- C2: two consecutive calls of `trace_object_without_moving` on the same
object both return the object and enqueue it at most once in total; the
first call with the mark bit not yet at `mark_state` enqueues exactly once,
a call that finds the mark bit already at `mark_state` neither enqueues nor
changes the metadata; and `attempt_mark` succeeds exactly on a byte
different from `mark_state`, after which every further call with the same
`mark_state` returns `false` until the byte is changed. -/
theorem C2_trace_without_moving_idempotent :
    (∀ (flags : ImmixFlags) (markStateArg lineMarkState obj : Nat)
      (m : ObjMeta) (queue : List Nat),
      (trace_object_without_moving flags markStateArg lineMarkState obj m
        queue).1 = obj ∧
      (trace_object_without_moving flags markStateArg lineMarkState obj
        (trace_object_without_moving flags markStateArg lineMarkState obj m
          queue).2.1
        (trace_object_without_moving flags markStateArg lineMarkState obj m
          queue).2.2).1 = obj ∧
      (trace_object_without_moving flags markStateArg lineMarkState obj
        (trace_object_without_moving flags markStateArg lineMarkState obj m
          queue).2.1
        (trace_object_without_moving flags markStateArg lineMarkState obj m
          queue).2.2).2.2.length ≤ queue.length + 1 ∧
      (m.markByte ≠ markStateArg →
        (trace_object_without_moving flags markStateArg lineMarkState obj m
          queue).2.2 = queue ++ [obj]) ∧
      (m.markByte = markStateArg →
        trace_object_without_moving flags markStateArg lineMarkState obj m
          queue = (obj, m, queue))) ∧
    (∀ b s, b ≠ s → attempt_mark b s = (true, s)) ∧
    (∀ s, attempt_mark s s = (false, s)) := by
  refine ⟨?_, ?_, ?_⟩
  · intro flags ms ls obj m q
    have hq2 : (trace_object_without_moving flags ms ls obj
        (trace_object_without_moving flags ms ls obj m q).2.1
        (trace_object_without_moving flags ms ls obj m q).2.2).2.2 =
        (trace_object_without_moving flags ms ls obj m q).2.2 := by
      rw [trace_object_without_moving_queue,
        trace_object_without_moving_markByte, if_pos rfl]
    refine ⟨trace_object_without_moving_fst _ _ _ _ _ _,
      trace_object_without_moving_fst _ _ _ _ _ _, ?_, ?_, ?_⟩
    · rw [hq2, trace_object_without_moving_queue]
      split <;> simp
    · intro hm
      rw [trace_object_without_moving_queue, if_neg hm]
    · intro hm
      exact trace_object_without_moving_of_marked _ _ _ _ _ _ hm
  · intro b s h
    simp [attempt_mark, h]
  · intro s
    simp [attempt_mark]

/-- Witness for C2, discharging the hypotheses of `attempt_mark` at the
concrete bytes 0 and 1 and of the first-call clause at a concrete object. -/
theorem C2_trace_without_moving_idempotent_witness :
    attempt_mark 0 1 = (true, 1) ∧ attempt_mark 1 1 = (false, 1) ∧
    (trace_object_without_moving ⟨false, false, false⟩ 1 7 42
      ⟨0, FwdStatus.NotForwarded, none, false, BlockState.Unmarked, none, true⟩
      []).2.2 = [] ++ [42] :=
  ⟨C2_trace_without_moving_idempotent.2.1 0 1 (by decide),
    C2_trace_without_moving_idempotent.2.2 1,
    (C2_trace_without_moving_idempotent.1 ⟨false, false, false⟩ 1 7 42
      ⟨0, FwdStatus.NotForwarded, none, false, BlockState.Unmarked, none, true⟩
      []).2.2.2.1 (by decide)⟩

/-- C3: when the calling thread wins the forwarding race on an unmarked
object and either the object is pinned or the collection is not a nursery
collection and the defrag copy headroom is exhausted,
`trace_object_with_opportunistic_copy` marks the object in place, clears
its forwarding bits back to NOT_FORWARDED, sets its containing block's
state to `Marked`, marks its lines unless line marking is deferred to scan
time, enqueues the object, makes no copy, and returns the original
reference unchanged. -/
theorem C3_opportunistic_copy_in_place :
    ∀ (flags : ImmixFlags) (nurseryCollection spaceExhausted : Bool)
      (markStateArg lineMarkState obj newAddr : Nat) (m : ObjMeta)
      (queue : List Nat),
      m.fwdStatus = FwdStatus.NotForwarded →
      m.markByte ≠ markStateArg →
      (m.pinned = true ∨ (nurseryCollection = false ∧ spaceExhausted = true)) →
      (trace_object_with_opportunistic_copy flags nurseryCollection
          spaceExhausted markStateArg lineMarkState obj newAddr m queue).ret
          = obj ∧
      (trace_object_with_opportunistic_copy flags nurseryCollection
          spaceExhausted markStateArg lineMarkState obj newAddr m
          queue).src.markByte = markStateArg ∧
      (trace_object_with_opportunistic_copy flags nurseryCollection
          spaceExhausted markStateArg lineMarkState obj newAddr m
          queue).src.fwdStatus = FwdStatus.NotForwarded ∧
      (trace_object_with_opportunistic_copy flags nurseryCollection
          spaceExhausted markStateArg lineMarkState obj newAddr m
          queue).src.blockState = BlockState.Marked ∧
      (flags.markLineAtScanTime = false →
        (trace_object_with_opportunistic_copy flags nurseryCollection
            spaceExhausted markStateArg lineMarkState obj newAddr m
            queue).src.lineMark = some lineMarkState) ∧
      (trace_object_with_opportunistic_copy flags nurseryCollection
          spaceExhausted markStateArg lineMarkState obj newAddr m
          queue).copyMeta = none ∧
      (trace_object_with_opportunistic_copy flags nurseryCollection
          spaceExhausted markStateArg lineMarkState obj newAddr m
          queue).queue = queue ++ [obj] := by
  intro flags nc se ms ls obj newAddr m q hfwd hmark hbranch
  have hcond : (m.pinned || (!nc && se)) = true := by
    rcases hbranch with h | ⟨h1, h2⟩
    · simp [h]
    · simp [h1, h2]
  have heq : trace_object_with_opportunistic_copy flags nc se ms ls obj
      newAddr m q =
      { ret := obj
        src := unlog_object_if_needed flags
          (if !flags.markLineAtScanTime then
            mark_lines ls
              { m with
                  markByte := ms
                  fwdStatus := FwdStatus.NotForwarded
                  blockState := BlockState.Marked }
           else
            { m with
                markByte := ms
                fwdStatus := FwdStatus.NotForwarded
                blockState := BlockState.Marked })
        copyMeta := none
        queue := q ++ [obj] } := by
    simp only [trace_object_with_opportunistic_copy, attempt_to_forward, hfwd,
      state_is_forwarded_or_being_forwarded, attempt_mark,
      clear_forwarding_bits, mark_lines, if_neg hmark, hcond]
    simp
  rw [heq]
  refine ⟨rfl, ?_, ?_, ?_, ?_, rfl, rfl⟩
  · rw [unlog_object_if_needed_markByte]
    split <;> rfl
  · rw [unlog_object_if_needed_fwdStatus]
    split <;> rfl
  · rw [unlog_object_if_needed_blockState]
    split <;> rfl
  · intro h
    rw [unlog_object_if_needed_lineMark]
    rw [if_pos (by simp [h])]
    rfl

/-- Witness for C3 at a concrete pinned, unmarked, unforwarded object. -/
theorem C3_opportunistic_copy_in_place_witness :
    (FwdStatus.NotForwarded = FwdStatus.NotForwarded) ∧ ((0 : Nat) ≠ 1) ∧
    (trace_object_with_opportunistic_copy ⟨false, false, false⟩ false false
        1 9 42 77
        ⟨0, FwdStatus.NotForwarded, none, true, BlockState.Unmarked, none, true⟩
        []).ret = 42 ∧
    (trace_object_with_opportunistic_copy ⟨false, false, false⟩ false false
        1 9 42 77
        ⟨0, FwdStatus.NotForwarded, none, true, BlockState.Unmarked, none, true⟩
        []).src.blockState = BlockState.Marked :=
  ⟨rfl, by decide,
    (C3_opportunistic_copy_in_place ⟨false, false, false⟩ false false 1 9 42 77
      ⟨0, FwdStatus.NotForwarded, none, true, BlockState.Unmarked, none, true⟩
      [] rfl (by decide) (Or.inl rfl)).1,
    (C3_opportunistic_copy_in_place ⟨false, false, false⟩ false false 1 9 42 77
      ⟨0, FwdStatus.NotForwarded, none, true, BlockState.Unmarked, none, true⟩
      [] rfl (by decide) (Or.inl rfl)).2.2.2.1⟩

/-! ## C4, C5: `PrepareBlockState::do_work` -/

/-- Per-block metadata touched by `PrepareBlockState`: the block state, the
hole count recorded by the previous cycle's sweep (`Block::get_holes`), and
the defrag-source flag. -/
structure BlockMeta where
  state : BlockState
  holes : Nat
  defragSource : Bool
  deriving DecidableEq, Repr

/-- The per-block defrag-source decision in `PrepareBlockState::do_work`:
`false` if defrag is disabled; `true` if `DEFRAG_EVERY_BLOCK`; otherwise
`holes > threshold` when this GC is a defrag GC (`defrag_threshold` is
`Some`), and `false` when it is not. -/
def is_defrag_source_decision (defragEnabled defragEveryBlock : Bool)
    (defragThreshold : Option Nat) (holes : Nat) : Bool :=
  if !defragEnabled then false
  else if defragEveryBlock then true
  else
    match defragThreshold with
    | some threshold => decide (holes > threshold)
    | none => false

/-- The `defrag_threshold` field that `ImmixSpace::prepare` stores into each
`PrepareBlockState` packet: `Some(threshold)` iff the space is in defrag
mode. -/
def prepare_defrag_threshold (inDefrag : Bool) (threshold : Nat) :
    Option Nat :=
  if inDefrag then some threshold else none

/-- The body of the block loop of `PrepareBlockState::do_work`: unallocated
blocks are skipped; every other block has its defrag-source flag set
according to the defrag predicate and its state set to `Unmarked`. -/
def prepare_one_block (defragEnabled defragEveryBlock : Bool)
    (defragThreshold : Option Nat) (block : BlockMeta) : BlockMeta :=
  if block.state = BlockState.Unallocated then block
  else
    { block with
        defragSource := is_defrag_source_decision defragEnabled
          defragEveryBlock defragThreshold block.holes
        state := BlockState.Unmarked }

/-- `PrepareBlockState::do_work`: zero the chunk's object mark bytes
(`reset_object_mark`), then run the block loop over every block of the
chunk. -/
def prepare_block_state_do_work (defragEnabled defragEveryBlock : Bool)
    (defragThreshold : Option Nat) (objMarkBytes : List Nat)
    (blocks : List BlockMeta) : List Nat × List BlockMeta :=
  (objMarkBytes.map (fun _ => 0),
    blocks.map (prepare_one_block defragEnabled defragEveryBlock
      defragThreshold))

/-- C4: a block whose defrag-source flag is set by the prepare phase was
either set while the space is in defrag mode with a previous-cycle hole
count exceeding the spill threshold, or `DEFRAG_EVERY_BLOCK` is enabled;
concretely, with `DEFRAG_EVERY_BLOCK` disabled and spill threshold 3 in a
defrag GC, a block with 5 holes becomes a defrag source and a block with 2
holes does not. -/
theorem C4_defrag_source_invariant :
    (∀ (defragEnabled defragEveryBlock inDefrag : Bool)
      (threshold holes : Nat),
      is_defrag_source_decision defragEnabled defragEveryBlock
        (prepare_defrag_threshold inDefrag threshold) holes = true →
      (inDefrag = true ∧ holes > threshold) ∨ defragEveryBlock = true) ∧
    is_defrag_source_decision true false (prepare_defrag_threshold true 3) 5
      = true ∧
    is_defrag_source_decision true false (prepare_defrag_threshold true 3) 2
      = false := by
  refine ⟨?_, by decide, by decide⟩
  intro defragEnabled defragEveryBlock inDefrag threshold holes h
  by_cases hb : defragEveryBlock = true
  · exact Or.inr hb
  · refine Or.inl ?_
    by_cases hd : inDefrag = true
    · simp only [is_defrag_source_decision, prepare_defrag_threshold,
        if_pos hd, hb] at h
      constructor
      · exact hd
      · by_cases he : defragEnabled = true <;> simp [he] at h
        exact h
    · simp only [is_defrag_source_decision, prepare_defrag_threshold,
        if_neg hd, hb] at h
      by_cases he : defragEnabled = true <;> simp [he] at h

/-- Witness for C4 at the concrete scenario of the claim. -/
theorem C4_defrag_source_invariant_witness :
    ((true = true ∧ 5 > 3) ∨ false = true) ∧
    is_defrag_source_decision true false (prepare_defrag_threshold true 3) 5
      = true :=
  ⟨C4_defrag_source_invariant.1 true false true 3 5 (by decide), by decide⟩

/-- C5: after `PrepareBlockState::do_work` has run over a chunk, every
block whose state was `Marked` or `Reusable` has state `Unmarked`, and
every block whose state was `Unallocated` still has state `Unallocated`
(stated per block, together with the fact that `do_work` applies exactly
this per-block transition to every block of the chunk). -/
theorem C5_prepare_block_states :
    (∀ (defragEnabled defragEveryBlock : Bool) (defragThreshold : Option Nat)
      (block : BlockMeta),
      ((block.state = BlockState.Marked ∨
        (∃ u, block.state = BlockState.Reusable u)) →
        (prepare_one_block defragEnabled defragEveryBlock defragThreshold
          block).state = BlockState.Unmarked) ∧
      (block.state = BlockState.Unallocated →
        (prepare_one_block defragEnabled defragEveryBlock defragThreshold
          block).state = BlockState.Unallocated)) ∧
    (∀ (defragEnabled defragEveryBlock : Bool) (defragThreshold : Option Nat)
      (objMarkBytes : List Nat) (blocks : List BlockMeta),
      (prepare_block_state_do_work defragEnabled defragEveryBlock
        defragThreshold objMarkBytes blocks).2 =
        blocks.map (prepare_one_block defragEnabled defragEveryBlock
          defragThreshold)) := by
  constructor
  · intro de eb dt block
    constructor
    · intro h
      have hne : ¬ block.state = BlockState.Unallocated := by
        rcases h with h | ⟨u, h⟩ <;> simp [h]
      simp [prepare_one_block, hne]
    · intro h
      simp [prepare_one_block, h]
  · intro de eb dt omb blocks
    rfl

/-- Witness for C5 on a concrete marked block and a concrete reusable
block. -/
theorem C5_prepare_block_states_witness :
    (prepare_one_block true false none
      ⟨BlockState.Marked, 4, false⟩).state = BlockState.Unmarked ∧
    (prepare_one_block true false none
      ⟨BlockState.Reusable 7, 4, false⟩).state = BlockState.Unmarked ∧
    (prepare_one_block true false none
      ⟨BlockState.Unallocated, 0, false⟩).state = BlockState.Unallocated :=
  ⟨(C5_prepare_block_states.1 true false none
      ⟨BlockState.Marked, 4, false⟩).1 (Or.inl rfl),
    (C5_prepare_block_states.1 true false none
      ⟨BlockState.Reusable 7, 4, false⟩).1 (Or.inr ⟨7, rfl⟩),
    (C5_prepare_block_states.1 true false none
      ⟨BlockState.Unallocated, 0, false⟩).2 rfl⟩

/-! ## C6: `ImmixSpace::get_reusable_block` -/

namespace Block

/-- Modelled from the spec: `Block::LINES` (`block.rs` is not among the
sources); a 32 KiB block of 256-byte lines has 128 lines, and
`LINES / 2 ≤ 253` holds. -/
def LINES : Nat := 128

end Block

/-- Modelled from the spec: `Block::init(copy)` (`block.rs` is not among
the sources); sets the block state to `Unmarked`, or `Marked` if the block
is allocated as a copy target, zeroes the hole count and clears the
defrag-source flag. -/
def Block.init (copy : Bool) (block : BlockMeta) : BlockMeta :=
  { block with
      state := if copy then BlockState.Marked else BlockState.Unmarked
      holes := 0
      defragSource := false }

/-- The pop loop of `ImmixSpace::get_reusable_block`, over the reusable
block pool embedded as a list popped from the front: skip popped blocks
whose defrag-source flag is set when `copy` is true; on the first remaining
block, add `LINES - unavailable_lines` (popped state
`Reusable { unavailable_lines }`) or `LINES` (popped state `Unmarked`) to
`lines_consumed`, then `init(copy)` the block and return it; any other
popped state is `unreachable!()`, embedded as `Except.error`.  An exhausted
pool returns `None`.  The result carries the returned block, the remaining
pool, and `lines_consumed` afterwards. -/
def get_reusable_block_pop_loop (copy : Bool) (linesConsumed : Nat) :
    List BlockMeta → Except Unit (Option BlockMeta × List BlockMeta × Nat)
  | [] => Except.ok (none, [], linesConsumed)
  | block :: rest =>
    if copy && block.defragSource then
      get_reusable_block_pop_loop copy linesConsumed rest
    else
      match block.state with
      | BlockState.Reusable unavailableLines =>
        Except.ok (some (Block.init copy block), rest,
          linesConsumed + (Block.LINES - unavailableLines))
      | BlockState.Unmarked =>
        Except.ok (some (Block.init copy block), rest,
          linesConsumed + Block.LINES)
      | _ => Except.error ()

/-- `ImmixSpace::get_reusable_block`: returns `None` immediately in
`BLOCK_ONLY` mode, otherwise runs the pop loop. -/
def get_reusable_block (blockOnly copy : Bool) (linesConsumed : Nat)
    (pool : List BlockMeta) :
    Except Unit (Option BlockMeta × List BlockMeta × Nat) :=
  if blockOnly then Except.ok (none, pool, linesConsumed)
  else get_reusable_block_pop_loop copy linesConsumed pool

/-- C6: `get_reusable_block` always returns `None` in `BLOCK_ONLY` mode;
when it returns a block, that block was popped from the pool, was not a
defrag source if `copy` was true, is returned after `init(copy)`, and
`lines_consumed` grew by exactly `LINES - unavailable_lines` (popped state
`Reusable { unavailable_lines }`) or `LINES` (popped state `Unmarked`),
measured on the popped state before `init` reset it; when every popped
block is skipped the result is `None`; and a popped non-skipped block in
any other state panics (`Except.error`). -/
theorem C6_get_reusable_block_correct :
    (∀ (copy : Bool) (linesConsumed : Nat) (pool : List BlockMeta),
      get_reusable_block true copy linesConsumed pool =
        Except.ok (none, pool, linesConsumed)) ∧
    (∀ (copy : Bool) (linesConsumed : Nat) (pool : List BlockMeta)
      (block : BlockMeta) (rest : List BlockMeta) (linesConsumed2 : Nat),
      get_reusable_block_pop_loop copy linesConsumed pool =
        Except.ok (some block, rest, linesConsumed2) →
      ∃ popped, popped ∈ pool ∧
        (copy = true → popped.defragSource = false) ∧
        block = Block.init copy popped ∧
        ((∃ u, popped.state = BlockState.Reusable u ∧
            linesConsumed2 = linesConsumed + (Block.LINES - u)) ∨
          (popped.state = BlockState.Unmarked ∧
            linesConsumed2 = linesConsumed + Block.LINES))) ∧
    (∀ (copy : Bool) (linesConsumed : Nat) (pool : List BlockMeta),
      (∀ popped, popped ∈ pool → copy = true ∧ popped.defragSource = true) →
      get_reusable_block_pop_loop copy linesConsumed pool =
        Except.ok (none, [], linesConsumed)) ∧
    (∀ (copy : Bool) (linesConsumed : Nat) (block : BlockMeta)
      (rest : List BlockMeta),
      (copy && block.defragSource) = false →
      (∀ u, block.state ≠ BlockState.Reusable u) →
      block.state ≠ BlockState.Unmarked →
      get_reusable_block_pop_loop copy linesConsumed (block :: rest) =
        Except.error ()) := by
  refine ⟨?_, ?_, ?_, ?_⟩
  · intro copy lc pool
    simp [get_reusable_block]
  · intro copy lc pool
    induction pool generalizing lc with
    | nil =>
      intro block rest lc2 h
      simp [get_reusable_block_pop_loop] at h
    | cons head tail ih =>
      intro block rest lc2 h
      rw [get_reusable_block_pop_loop] at h
      by_cases hskip : (copy && head.defragSource) = true
      · rw [if_pos hskip] at h
        obtain ⟨popped, hmem, hrest⟩ := ih lc block rest lc2 h
        exact ⟨popped, List.mem_cons_of_mem _ hmem, hrest⟩
      · rw [if_neg hskip] at h
        refine ⟨head, List.mem_cons_self _ _, ?_, ?_⟩
        · intro hc
          subst hc
          simpa using hskip
        · cases hst : head.state with
          | Reusable u =>
            rw [hst] at h
            simp only [Except.ok.injEq, Prod.mk.injEq, Option.some.injEq]
              at h
            exact ⟨h.1.symm, Or.inl ⟨u, rfl, h.2.2.symm⟩⟩
          | Unmarked =>
            rw [hst] at h
            simp only [Except.ok.injEq, Prod.mk.injEq, Option.some.injEq]
              at h
            exact ⟨h.1.symm, Or.inr ⟨rfl, h.2.2.symm⟩⟩
          | Unallocated =>
            rw [hst] at h
            simp at h
          | Marked =>
            rw [hst] at h
            simp at h
  · intro copy lc pool
    induction pool generalizing lc with
    | nil =>
      intro _
      rfl
    | cons head tail ih =>
      intro hall
      rw [get_reusable_block_pop_loop]
      have hskip : (copy && head.defragSource) = true := by
        obtain ⟨h1, h2⟩ := hall head (List.mem_cons_self _ _)
        simp [h1, h2]
      rw [if_pos hskip]
      exact ih lc (fun popped hmem => hall popped (List.mem_cons_of_mem _ hmem))
  · intro copy lc block rest hskip hnr hnu
    rw [get_reusable_block_pop_loop]
    rw [if_neg (by simp [hskip])]
    cases hst : block.state with
    | Reusable u => exact absurd hst (hnr u)
    | Unmarked => exact absurd hst hnu
    | Unallocated => rfl
    | Marked => rfl

/-- Witness for C6: a pool holding one defrag-source block followed by one
reusable block, popped with `copy = true`, plus a panicking pop of a
`Marked` block. -/
theorem C6_get_reusable_block_correct_witness :
    (∃ popped,
      popped ∈ [(⟨BlockState.Reusable 28, 2, true⟩ : BlockMeta),
        ⟨BlockState.Reusable 100, 5, false⟩] ∧
      (true = true → popped.defragSource = false) ∧
      (⟨BlockState.Marked, 0, false⟩ : BlockMeta) = Block.init true popped ∧
      ((∃ u, popped.state = BlockState.Reusable u ∧
          10 + (Block.LINES - u) = 10 + (Block.LINES - u)) ∨
        (popped.state = BlockState.Unmarked ∧
          10 + (Block.LINES - 100) = 10 + Block.LINES))) ∧
    get_reusable_block_pop_loop false 0
      [(⟨BlockState.Marked, 0, false⟩ : BlockMeta)] = Except.error () := by
  constructor
  · have h := C6_get_reusable_block_correct.2.1 true 10
      [(⟨BlockState.Reusable 28, 2, true⟩ : BlockMeta),
        ⟨BlockState.Reusable 100, 5, false⟩]
      ⟨BlockState.Marked, 0, false⟩
      [] (10 + (Block.LINES - 100)) (by rfl)
    obtain ⟨popped, hmem, hdf, hinit, hcase⟩ := h
    refine ⟨popped, hmem, hdf, hinit, ?_⟩
    rcases hcase with ⟨u, hu, _⟩ | ⟨hu, hlc⟩
    · exact Or.inl ⟨u, hu, rfl⟩
    · exact Or.inr ⟨hu, hlc⟩
  · exact C6_get_reusable_block_correct.2.2.2 false 0
      ⟨BlockState.Marked, 0, false⟩ [] (by rfl)
      (by intro u h; cases h) (by intro h; cases h)

/-! ## C7, C8: `ImmixSpace::release` and `ImmixSpace::get_pages_allocated` -/

/-- The mutable `ImmixSpace` fields involved in `release` and
`get_pages_allocated`: the two rotating line mark states, the
`lines_consumed` counter, and the reusable block pool. -/
structure SpaceState where
  lineMarkState : Nat
  lineUnavailState : Nat
  linesConsumed : Nat
  reusableBlocks : List BlockMeta
  deriving DecidableEq, Repr

/-- `ImmixSpace::release(major_gc)`: on a major GC with line marking
enabled (not `BLOCK_ONLY`), store `line_mark_state` into
`line_unavail_state`; when not `BLOCK_ONLY`, reset the reusable block
pool; the sweep work packets are generated and scheduled (they run later,
in the Release bucket, and are not part of this state change); finally
reset `lines_consumed` to 0. -/
def ImmixSpace.release (blockOnly majorGC : Bool) (s : SpaceState) :
    SpaceState :=
  let s1 :=
    if majorGC && !blockOnly then { s with lineUnavailState := s.lineMarkState }
    else s
  let s2 := if !blockOnly then { s1 with reusableBlocks := [] } else s1
  { s2 with linesConsumed := 0 }

/-- Modelled from the spec: `LOG_BYTES_IN_PAGE` (`util/constants.rs` is not
among the sources); pages are 4 KiB. -/
def LOG_BYTES_IN_PAGE : Nat := 12

namespace Line

/-- Modelled from the spec: `Line::LOG_BYTES` (`line.rs` is not among the
sources); lines are 256 bytes. -/
def LOG_BYTES : Nat := 8

end Line

/-- `ImmixSpace::get_pages_allocated`:
`lines_consumed >> (LOG_BYTES_IN_PAGE - Line::LOG_BYTES)`. -/
def get_pages_allocated (s : SpaceState) : Nat :=
  s.linesConsumed >>> (LOG_BYTES_IN_PAGE - Line.LOG_BYTES)

/-- C7: after `release(major_gc)` with `major_gc = true` and line marking
enabled (not `BLOCK_ONLY`), `line_unavail_state` equals the
`line_mark_state` current at the end of the cycle, and after any `release`
call `lines_consumed` is 0. -/
theorem C7_release_updates_states :
    (∀ s : SpaceState,
      (ImmixSpace.release false true s).lineUnavailState =
        (ImmixSpace.release false true s).lineMarkState) ∧
    (∀ (blockOnly majorGC : Bool) (s : SpaceState),
      (ImmixSpace.release blockOnly majorGC s).linesConsumed = 0) := by
  constructor
  · intro s
    rfl
  · intro blockOnly majorGC s
    rfl

/-- C8: `get_pages_allocated()` returns exactly the current value of
`lines_consumed` shifted right by `LOG_BYTES_IN_PAGE - Line::LOG_BYTES`,
i.e. divided by `2 ^ (LOG_BYTES_IN_PAGE - Line::LOG_BYTES)`. -/
theorem C8_get_pages_allocated_shift :
    ∀ s : SpaceState,
      get_pages_allocated s =
        s.linesConsumed / 2 ^ (LOG_BYTES_IN_PAGE - Line.LOG_BYTES) := by
  intro s
  simp [get_pages_allocated, Nat.shiftRight_eq_div_pow]

/-! ## C9: `process_slot` (`gc_work.rs`) -/

/-- `TRACE_KIND_FAST` from `immixspace.rs`. -/
def TRACE_KIND_FAST : Nat := 0

/-- `TRACE_KIND_DEFRAG` from `immixspace.rs`. -/
def TRACE_KIND_DEFRAG : Nat := 1

/-- Modelled from the spec: `TRACE_KIND_TRANSITIVE_PIN`
(`policy/gc_work.rs` is not among the sources); the third trace kind,
distinct from `FAST` and `DEFRAG`. -/
def TRACE_KIND_TRANSITIVE_PIN : Nat := 2

/-- `ImmixSpace`'s `may_move_objects::<KIND>()`: `true` for `DEFRAG`,
`false` for `FAST` and `TRANSITIVE_PIN`, `unreachable!()` (here `none`) for
any other kind. -/
def may_move_objects (kind : Nat) : Option Bool :=
  if kind = TRACE_KIND_DEFRAG then some true
  else if kind = TRACE_KIND_FAST ∨ kind = TRACE_KIND_TRANSITIVE_PIN then
    some false
  else none

/-- `PlanProcessEdges::process_slot`: load the slot; if it holds no object
reference, skip it; otherwise trace the object and store the returned
reference back only when `P::may_move_objects::<KIND>()` holds and the
reference differs from the loaded one.  The slot is embedded as its
content (`Option` of an object reference) and `trace_object` as the
function from the loaded reference to the returned one; the result is the
slot's content afterwards. -/
def process_slot (mayMove : Bool) (traceObject : Nat → Nat)
    (slot : Option Nat) : Option Nat :=
  match slot with
  | none => slot
  | some object =>
    let newObject := traceObject object
    if mayMove = true ∧ newObject ≠ object then some newObject else slot

/-- The default `ProcessEdgesWork::process_slot`: identical, except that
the write-back is guarded by the associated constant
`Self::OVERWRITE_REFERENCE` instead of `P::may_move_objects::<KIND>()`. -/
def process_slot_default (overwriteReference : Bool)
    (traceObject : Nat → Nat) (slot : Option Nat) : Option Nat :=
  match slot with
  | none => slot
  | some object =>
    let newObject := traceObject object
    if overwriteReference = true ∧ newObject ≠ object then some newObject
    else slot

/-- C9: `process_slot` overwrites a slot only when the trace kind in use
may move objects and `trace_object` returned a reference different from
the loaded one, in which case the new content is exactly the returned
reference; slots holding no object reference are skipped unchanged, and
the same holds of the default `ProcessEdgesWork::process_slot` with its
`OVERWRITE_REFERENCE` guard; for Immix trace kinds, only `DEFRAG` may move
objects. -/
theorem C9_process_slot_frame :
    (∀ (mayMove : Bool) (traceObject : Nat → Nat) (slot : Option Nat),
      (slot = none → process_slot mayMove traceObject slot = none) ∧
      (process_slot mayMove traceObject slot ≠ slot →
        mayMove = true ∧
        ∃ object, slot = some object ∧ traceObject object ≠ object ∧
          process_slot mayMove traceObject slot =
            some (traceObject object))) ∧
    (∀ (overwriteReference : Bool) (traceObject : Nat → Nat)
      (slot : Option Nat),
      (slot = none →
        process_slot_default overwriteReference traceObject slot = none) ∧
      (process_slot_default overwriteReference traceObject slot ≠ slot →
        overwriteReference = true ∧
        ∃ object, slot = some object ∧ traceObject object ≠ object ∧
          process_slot_default overwriteReference traceObject slot =
            some (traceObject object))) ∧
    may_move_objects TRACE_KIND_DEFRAG = some true ∧
    may_move_objects TRACE_KIND_FAST = some false ∧
    may_move_objects TRACE_KIND_TRANSITIVE_PIN = some false := by
  refine ⟨?_, ?_, by decide, by decide, by decide⟩
  · intro mayMove traceObject slot
    constructor
    · intro h
      subst h
      rfl
    · intro hne
      cases slot with
      | none => exact absurd rfl hne
      | some object =>
        simp only [process_slot] at hne ⊢
        by_cases hw : mayMove = true ∧ traceObject object ≠ object
        · rw [if_pos hw] at hne ⊢
          exact ⟨hw.1, object, rfl, hw.2, rfl⟩
        · rw [if_neg hw] at hne
          exact absurd rfl hne
  · intro ow traceObject slot
    constructor
    · intro h
      subst h
      rfl
    · intro hne
      cases slot with
      | none => exact absurd rfl hne
      | some object =>
        simp only [process_slot_default] at hne ⊢
        by_cases hw : ow = true ∧ traceObject object ≠ object
        · rw [if_pos hw] at hne ⊢
          exact ⟨hw.1, object, rfl, hw.2, rfl⟩
        · rw [if_neg hw] at hne
          exact absurd rfl hne

/-- Witness for C9 at a concrete moving trace on a changed reference and a
concrete empty slot. -/
theorem C9_process_slot_frame_witness :
    (process_slot true (fun n => n + 1) none = none) ∧
    (true = true ∧
      ∃ object, (some 5 : Option Nat) = some object ∧
        (fun n => n + 1) object ≠ object ∧
        process_slot true (fun n => n + 1) (some 5) =
          some ((fun n => n + 1) object)) :=
  ⟨(C9_process_slot_frame.1 true (fun n => n + 1) none).1 rfl,
    (C9_process_slot_frame.1 true (fun n => n + 1) (some 5)).2 (by decide)⟩

/-! ## C10: `ImmixSpace::is_live` and `get_forwarded_object` (SFT) -/

/-- `SFT::is_movable` for `ImmixSpace`:
`!space_args.never_move_objects`. -/
def is_movable (neverMoveObjects : Bool) : Bool := !neverMoveObjects

/-- `ImmixSpace::is_marked_with` / `is_marked`: compare the object's mark
byte with the space's current `mark_state`. -/
def is_marked_with (m : ObjMeta) (markStateArg : Nat) : Bool :=
  decide (m.markByte = markStateArg)

/-- `object_forwarding::is_forwarded`: the forwarding bits read FORWARDED. -/
def is_forwarded (m : ObjMeta) : Bool :=
  decide (m.fwdStatus = FwdStatus.Forwarded)

/-- `object_forwarding::read_forwarding_pointer` (sequential semantics: the
pointer has been installed whenever the bits read FORWARDED; it defaults to
0 if absent). -/
def read_forwarding_pointer (m : ObjMeta) : Nat :=
  m.fwdPtr.getD 0

/-- `ImmixSpace::get_forwarded_object`: `None` if the space never moves
objects; otherwise the forwarding pointer if the object is forwarded. -/
def get_forwarded_object (neverMoveObjects : Bool) (m : ObjMeta) :
    Option Nat :=
  if !(is_movable neverMoveObjects) then none
  else if is_forwarded m then some (read_forwarding_pointer m)
  else none

/-- `ImmixSpace::is_live`: live if marked; otherwise, if the space never
moves objects, dead; otherwise live iff forwarded. -/
def is_live (neverMoveObjects : Bool) (markStateArg : Nat) (m : ObjMeta) :
    Bool :=
  if is_marked_with m markStateArg then true
  else if !(is_movable neverMoveObjects) then false
  else is_forwarded m

/-- C10: `is_live` holds iff the object's mark bit equals the current
`mark_state`, or the space is movable and the object's forwarding state is
FORWARDED; in a space that never moves objects an unmarked object is dead
regardless of its forwarding bits, and `get_forwarded_object` always
returns `None` in such a space. -/
theorem C10_is_live_get_forwarded :
    ∀ (neverMoveObjects : Bool) (markStateArg : Nat) (m : ObjMeta),
      (is_live neverMoveObjects markStateArg m = true ↔
        (is_marked_with m markStateArg = true ∨
          (is_movable neverMoveObjects = true ∧ is_forwarded m = true))) ∧
      (neverMoveObjects = true → m.markByte ≠ markStateArg →
        is_live neverMoveObjects markStateArg m = false) ∧
      (neverMoveObjects = true →
        get_forwarded_object neverMoveObjects m = none) := by
  intro nmo ms m
  refine ⟨?_, ?_, ?_⟩
  · unfold is_live
    by_cases hm : is_marked_with m ms
    · simp [hm]
    · simp only [if_neg hm]
      by_cases hmv : is_movable nmo
      · simp [hmv, hm]
      · simp only [is_movable] at hmv ⊢
        simp only [Bool.not_eq_true] at hmv
        simp [hmv, hm]
  · intro hn hm
    unfold is_live
    rw [if_neg (by simp [is_marked_with, hm])]
    rw [if_pos (by simp [is_movable, hn])]
  · intro hn
    unfold get_forwarded_object
    rw [if_pos (by simp [is_movable, hn])]

/-- Witness for C10: a never-moving space with an unmarked object whose
forwarding bits read FORWARDED. -/
theorem C10_is_live_get_forwarded_witness :
    (is_live true 1
        ⟨0, FwdStatus.Forwarded, some 9, false, BlockState.Marked, none, true⟩
        = false) ∧
    (get_forwarded_object true
        ⟨0, FwdStatus.Forwarded, some 9, false, BlockState.Marked, none, true⟩
        = none) :=
  ⟨(C10_is_live_get_forwarded true 1
      ⟨0, FwdStatus.Forwarded, some 9, false, BlockState.Marked, none, true⟩
      ).2.1 rfl (by decide),
    (C10_is_live_get_forwarded true 1
      ⟨0, FwdStatus.Forwarded, some 9, false, BlockState.Marked, none, true⟩
      ).2.2 rfl⟩

end MMTkImmix
